import Mathlib

/-!
# Verification of the OrderFlow backend (`backend/main.py`)

A shallow embedding of the footprint engine, the binary tick decoder, the
subscription endpoints, the settings endpoint and the daily-reset routine of
`backend/main.py`, together with theorems settling the specified properties.

Python floats are modelled as rationals (`ℚ`); Python ints and byte strings as
`Nat`/`Int` and `List Nat`.  Python dicts (which preserve insertion order) are
modelled as association lists keyed by the dict key, with in-place value update
and end-insertion.
-/

namespace OrderFlow

/-- Trade side tag (`"buy"` / `"sell"` strings in the source). -/
inductive Side where
  | buy
  | sell
deriving DecidableEq, Repr

/-- Engine / process configuration, read from environment variables in the
source (`CANDLE_SECONDS`, `IMBALANCE_RATIO`, `MAX_CANDLES_PER_SYMBOL`,
`MAX_LEVELS_PER_CANDLE`). -/
structure Config where
  candleSeconds : Nat
  imbalanceRatio : ℚ
  maxCandles : Nat
  maxLevels : Nat
deriving DecidableEq, Repr

/-- The defaults from the source (`60`, `3.0`, `1000`, `500`). -/
def defaultConfig : Config :=
  { candleSeconds := 60, imbalanceRatio := 3, maxCandles := 1000, maxLevels := 500 }

/-- `FootprintLevel`: one price bucket of a candle. -/
structure FootprintLevel where
  price : ℚ
  buy_vol : ℚ := 0
  sell_vol : ℚ := 0
deriving DecidableEq, Repr

namespace FootprintLevel

/-- `FootprintLevel.delta` property. -/
def delta (lv : FootprintLevel) : ℚ := lv.buy_vol - lv.sell_vol

/-- `FootprintLevel.total_vol` property. -/
def total_vol (lv : FootprintLevel) : ℚ := lv.buy_vol + lv.sell_vol

/-- `FootprintLevel.imbalance` property: `"buy"` when
`sell_vol > 0 ∧ buy_vol / sell_vol ≥ R`, else `"sell"` when
`buy_vol > 0 ∧ sell_vol / buy_vol ≥ R`, else `None`. -/
def imbalance (R : ℚ) (lv : FootprintLevel) : Option Side :=
  if lv.sell_vol > 0 ∧ lv.buy_vol / lv.sell_vol ≥ R then some .buy
  else if lv.buy_vol > 0 ∧ lv.sell_vol / lv.buy_vol ≥ R then some .sell
  else none

end FootprintLevel

/-- `FootprintCandle`.  The `levels` dict is an association list from the
0.05-rounded price to the level, in insertion order (Python dicts preserve
insertion order). -/
structure FootprintCandle where
  open_time : Nat
  open_px : ℚ := 0
  high : ℚ := 0
  low : ℚ := 999999
  close : ℚ := 0
  buy_vol : ℚ := 0
  sell_vol : ℚ := 0
  levels : List (ℚ × FootprintLevel) := []
  closed : Bool := false
  delta_open : ℚ := 0
  delta_min : ℚ := 0
  delta_max : ℚ := 0
  initiative : Option Side := none
  oi : ℚ := 0
  oi_change : ℚ := 0
deriving DecidableEq, Repr

namespace FootprintCandle

/-- `FootprintCandle.delta` property. -/
def delta (c : FootprintCandle) : ℚ := c.buy_vol - c.sell_vol

end FootprintCandle

/-- Per-symbol engine state (`OrderFlowEngine.__init__`). -/
structure OrderFlowEngine where
  symbol : String
  security_id : String
  candles : List FootprintCandle := []
  current_candle : Option FootprintCandle := none
  last_ltp : ℚ := 0
  last_bid : ℚ := 0
  last_ask : ℚ := 0
  cvd : ℚ := 0
  tick_count : Nat := 0
  prev_volume : ℚ := 0
  prev_total_buy : ℚ := 0
  prev_total_sell : ℚ := 0
  last_oi : ℚ := 0
deriving DecidableEq, Repr

/-- A fresh engine, as built by `OrderFlowEngine(symbol, security_id)`. -/
def mkEngine (symbol security_id : String) : OrderFlowEngine :=
  { symbol := symbol, security_id := security_id }

/-- One input to `process_tick`. -/
structure Tick where
  ltp : ℚ
  bid : ℚ := 0
  ask : ℚ := 0
  vol : ℚ := 0
  ts_ms : Nat
  cumulative_volume : Option ℚ := none
  oi : Option ℚ := none
deriving DecidableEq, Repr

/-- Python `round` (banker's rounding, half to even) on a rational. -/
def pyRound (q : ℚ) : Int :=
  let f : Int := ⌊q⌋
  let frac : ℚ := q - f
  if frac < 1/2 then f
  else if 1/2 < frac then f + 1
  else if f % 2 = 0 then f else f + 1

namespace OrderFlowEngine

/-- `OrderFlowEngine._candle_start`: floor the millisecond timestamp to the
candle boundary (`(ts_ms // cs) * cs` with `cs = CANDLE_SECONDS * 1000`). -/
def candle_start (cfg : Config) (ts_ms : Nat) : Nat :=
  let cs := cfg.candleSeconds * 1000
  (ts_ms / cs) * cs

/-- Traded volume computation in `process_tick` (volume-delta on the session
cumulative volume when `prev_volume > 0`, else the LTQ fallback); returns the
traded volume together with the updated `prev_volume`. -/
def tradedVolume (e : OrderFlowEngine) (t : Tick) : ℚ × ℚ :=
  match t.cumulative_volume with
  | some cv =>
      if e.prev_volume > 0 then
        let dv := cv - e.prev_volume
        (if dv ≤ 0 then 0 else dv, cv)
      else (t.vol, cv)
  | none => (t.vol, e.prev_volume)

/-- Side attribution in `process_tick`: the `(buy_vol_add, sell_vol_add)`
pair.  `bid and ask` is Python float truthiness, i.e. both non-zero. -/
def classify (e : OrderFlowEngine) (t : Tick) (delta_volume : ℚ) : ℚ × ℚ :=
  let prev := e.last_ltp
  if delta_volume > 0 ∧ prev > 0 then
    if t.ltp > prev then (delta_volume, 0)
    else if t.ltp < prev then (0, delta_volume)
    else if t.bid ≠ 0 ∧ t.ask ≠ 0 ∧ t.bid ≠ t.ask then
      if t.ltp ≥ t.ask then (delta_volume, 0)
      else if t.ltp ≤ t.bid then (0, delta_volume)
      else (delta_volume / 2, delta_volume / 2)
    else (delta_volume / 2, delta_volume / 2)
  else
    if t.ltp > e.last_ltp then (delta_volume, 0)
    else if t.ltp < e.last_ltp then (0, delta_volume)
    else
      let mid := if t.bid ≠ 0 ∧ t.ask ≠ 0 then (t.bid + t.ask) / 2 else t.ltp
      if t.ltp ≥ mid then (delta_volume, 0) else (0, delta_volume)

end OrderFlowEngine

/-- Minimum key of a non-empty association list (`min(c.levels.keys())`). -/
def minKey (ls : List (ℚ × FootprintLevel)) : ℚ :=
  ls.foldl (fun m p => min m p.1) (ls.headD (0, { price := 0 })).1

/-- `del c.levels[min_p]`: remove the entry whose key is the minimum key. -/
def evictMin (ls : List (ℚ × FootprintLevel)) : List (ℚ × FootprintLevel) :=
  let m := minKey ls
  ls.eraseP (fun p => p.1 == m)

/-- Does the key occur in the level dict? (`rounded_price in c.levels`). -/
def hasKey (ls : List (ℚ × FootprintLevel)) (k : ℚ) : Bool :=
  ls.any (fun p => p.1 == k)

/-- In-place update of the value at the (first occurrence of the) key, the
model of `lv.buy_vol += ...; lv.sell_vol += ...` on `c.levels[rounded_price]`. -/
def updateKey (ls : List (ℚ × FootprintLevel)) (k : ℚ)
    (f : FootprintLevel → FootprintLevel) : List (ℚ × FootprintLevel) :=
  match ls with
  | [] => []
  | p :: ps => if p.1 = k then (p.1, f p.2) :: ps else p :: updateKey ps k f

namespace OrderFlowEngine

/-- Candle finalization when rolling (`initiative` from the sign of the final
delta, `closed := True`). -/
def finalizeCandle (c : FootprintCandle) : FootprintCandle :=
  let ini : Option Side :=
    if c.delta > 0 then some .buy else if c.delta < 0 then some .sell else none
  { c with initiative := ini, closed := true }

/-- A fresh candle opened at `candle_ts` with OHLC set to the tick price and
zeroed flow. -/
def newCandle (candle_ts : Nat) (ltp : ℚ) : FootprintCandle :=
  { open_time := candle_ts, open_px := ltp, high := ltp, low := ltp, close := ltp,
    delta_open := 0, delta_min := 0, delta_max := 0 }

/-- `self.candles = self.candles[-MAX_CANDLES_PER_SYMBOL:]` (executed only
when the length exceeds the cap). -/
def pruneCandles (cfg : Config) (cs : List FootprintCandle) : List FootprintCandle :=
  if cs.length > cfg.maxCandles then cs.drop (cs.length - cfg.maxCandles) else cs

/-- The candle-rolling block of `process_tick`: returns the (possibly pruned)
closed-candle list, the candle the tick will be applied to, and the updated
`last_oi`. -/
def rollCandles (cfg : Config) (e : OrderFlowEngine) (candle_ts : Nat) (ltp : ℚ) :
    List FootprintCandle × FootprintCandle × ℚ :=
  match e.current_candle with
  | some c =>
      if c.open_time = candle_ts then (e.candles, c, e.last_oi)
      else
        let prev := finalizeCandle c
        (pruneCandles cfg (e.candles ++ [prev]), newCandle candle_ts ltp, prev.oi)
  | none => (e.candles, newCandle candle_ts ltp, e.last_oi)

/-- The per-candle update block of `process_tick`: OHLC maintenance, level
insertion with the `MAX_LEVELS_PER_CANDLE` eviction cap, flow totals,
delta-min/max tracking and the optional tick OI. -/
def applyFlow (cfg : Config) (c0 : FootprintCandle) (ltp : ℚ)
    (buy_vol_add sell_vol_add : ℚ) (toi : Option ℚ) (last_oi' : ℚ) : FootprintCandle :=
  -- OHLC update
  let c1 := { c0 with high := max c0.high ltp, low := min c0.low ltp, close := ltp }
  -- level update with eviction cap
  let rounded_price : ℚ := (pyRound (ltp * 20) : ℚ) / 20
  let ls0 :=
    if hasKey c1.levels rounded_price then c1.levels
    else
      let kept := if c1.levels.length ≥ cfg.maxLevels then evictMin c1.levels else c1.levels
      kept ++ [(rounded_price, { price := rounded_price })]
  let ls1 := updateKey ls0 rounded_price
    (fun lv => { lv with buy_vol := lv.buy_vol + buy_vol_add,
                         sell_vol := lv.sell_vol + sell_vol_add })
  let c2 := { c1 with levels := ls1,
                      buy_vol := c1.buy_vol + buy_vol_add,
                      sell_vol := c1.sell_vol + sell_vol_add }
  -- delta min/max tracking
  let d := c2.delta
  let c3 := { c2 with delta_min := min c2.delta_min d, delta_max := max c2.delta_max d }
  -- OI on current candle
  match toi with
  | some oiv => if oiv > 0 then { c3 with oi := oiv, oi_change := oiv - last_oi' } else c3
  | none => c3

/-- `OrderFlowEngine.process_tick`, translated clause by clause from the
source. -/
def process_tick (cfg : Config) (e : OrderFlowEngine) (t : Tick) : OrderFlowEngine :=
  let vp := e.tradedVolume t
  let delta_volume := vp.1
  let prev_volume' := vp.2
  let bs := e.classify t delta_volume
  let buy_vol_add := bs.1
  let sell_vol_add := bs.2
  let candle_ts := candle_start cfg t.ts_ms
  let rolled := rollCandles cfg e candle_ts t.ltp
  let candles' := rolled.1
  let c0 := rolled.2.1
  let last_oi' := rolled.2.2
  { e with candles := candles',
           current_candle := some (applyFlow cfg c0 t.ltp buy_vol_add sell_vol_add t.oi last_oi'),
           last_ltp := t.ltp,
           cvd := e.cvd + buy_vol_add - sell_vol_add,
           prev_volume := prev_volume',
           last_oi := last_oi' }

/-- Fold `process_tick` over a list of ticks. -/
def processTicks (cfg : Config) (e : OrderFlowEngine) (ts : List Tick) : OrderFlowEngine :=
  ts.foldl (process_tick cfg) e

end OrderFlowEngine

/-! ## Binary decoder (`parse_dhan_binary`)

Bytes are modelled as `List Nat` (each entry `< 256` on real frames; reads use
a default of `0`, which is never reached under the length guards the source
performs before every `struct.unpack_from`).  IEEE-754 `f32` fields are kept as
their raw 32-bit little-endian patterns: the claims about the decoder concern
field presence and integer sanity bounds, not float decoding. -/

/-- `struct.unpack_from("<B", raw, i)`. -/
def getU8 (raw : List Nat) (i : Nat) : Nat := raw.getD i 0

/-- `struct.unpack_from("<H", raw, i)` (little-endian u16). -/
def getU16 (raw : List Nat) (i : Nat) : Nat := getU8 raw i + 256 * getU8 raw (i + 1)

/-- `struct.unpack_from("<I", raw, i)` (little-endian u32); also the raw bit
pattern of an `<f` read. -/
def getU32 (raw : List Nat) (i : Nat) : Nat :=
  getU8 raw i + 256 * getU8 raw (i + 1) + 65536 * getU8 raw (i + 2) +
    16777216 * getU8 raw (i + 3)

/-- `struct.unpack_from("<h", raw, i)` (little-endian signed i16). -/
def getI16 (raw : List Nat) (i : Nat) : Int :=
  let v := getU16 raw i
  if v < 32768 then (v : Int) else (v : Int) - 65536

/-- The normalized quote record built for a feed-code-4 frame. -/
structure QuoteData where
  securityId : Nat
  ltp_bits : Nat
  ltq : Int
  ltt_ms : Nat
  atp_bits : Nat
  volume : Nat
  totalSellQty : Nat
  totalBuyQty : Nat
  dayOpen_bits : Nat
  dayClose_bits : Nat
  dayHigh_bits : Nat
  dayLow_bits : Nat
  openInterest : Option Nat
deriving DecidableEq, Repr

/-- Decoder result: `None`, a ticker record, or a quote record. -/
inductive ParseResult where
  | nothing
  | ticker (securityId : Nat) (ltp_bits : Nat) (timestamp : Nat)
  | quote (q : QuoteData)
deriving DecidableEq, Repr

/-- `parse_dhan_binary`, translated clause by clause.  Timestamp seconds are
scaled to ms when non-zero and `< 1e12` (`if ts and ts < 1e12`). -/
def parse_dhan_binary (raw : List Nat) : ParseResult :=
  if raw.length < 8 then .nothing
  else
    let feed_code := getU8 raw 0
    let security_id := getU32 raw 4
    if feed_code = 2 ∧ raw.length ≥ 8 + 8 then
      let ts := getU32 raw 12
      .ticker security_id (getU32 raw 8)
        (if ts ≠ 0 ∧ ts < 1000000000000 then ts * 1000 else ts)
    else if feed_code = 4 ∧ raw.length ≥ 8 + 50 then
      let ltt := getU32 raw 14
      let raw_oi := getU32 raw 50
      let oi : Option Nat :=
        if raw.length ≥ 54 ∧ 0 < raw_oi ∧ raw_oi ≤ 100000000 then some raw_oi else none
      .quote
        { securityId := security_id
          ltp_bits := getU32 raw 8
          ltq := getI16 raw 12
          ltt_ms := if ltt ≠ 0 ∧ ltt < 1000000000000 then ltt * 1000 else ltt
          atp_bits := getU32 raw 18
          volume := getU32 raw 22
          totalSellQty := getU32 raw 26
          totalBuyQty := getU32 raw 30
          dayOpen_bits := getU32 raw 34
          dayClose_bits := getU32 raw 38
          dayHigh_bits := getU32 raw 42
          dayLow_bits := getU32 raw 46
          openInterest := oi }
    else .nothing

/-! ## Subscription endpoints, settings endpoint and daily reset -/

/-- One entry of `subscribed_symbols`. -/
structure SubInfo where
  security_id : String
  exchange_segment : String
deriving DecidableEq, Repr

/-- The module-global registry state the endpoints mutate. -/
structure GlobalState where
  engines : List (String × OrderFlowEngine)
  subscribed_symbols : List (String × SubInfo)
deriving DecidableEq, Repr

/-- Python str.upper modelled character-wise (kernel-computable equivalent of
String.toUpper). -/
def pyUpper (s : String) : String := ⟨s.data.map Char.toUpper⟩

/-- Key membership in an association list keyed by strings. -/
def containsKeyS {α : Type} (ls : List (String × α)) (k : String) : Bool :=
  ls.any (fun p => p.1 == k)

/-- Dict assignment `d[k] = v`: update in place when present, append when
absent. -/
def setKeyS {α : Type} (ls : List (String × α)) (k : String) (v : α) :
    List (String × α) :=
  match ls with
  | [] => [(k, v)]
  | p :: ps => if p.1 = k then (p.1, v) :: ps else p :: setKeyS ps k v

/-- HTTP-level result of an endpoint call: either an `HTTPException(code)` or a
success payload. -/
inductive EndpointResult (α : Type) where
  | error (code : Nat)
  | ok (payload : α)
deriving DecidableEq, Repr

/-- `POST /api/subscribe` (`subscribe`).  Raising `HTTPException` leaves the
global state unchanged, so the endpoint returns the (possibly updated) state
together with the HTTP result. -/
def subscribe (maxEngines : Nat) (s : GlobalState)
    (symbol security_id exchange_segment : String) :
    GlobalState × EndpointResult String :=
  let sym := pyUpper symbol
  if sym = "" ∨ security_id = "" then (s, .error 400)
  else if ¬ containsKeyS s.engines sym ∧ s.engines.length ≥ maxEngines then
    (s, .error 503)
  else
    let subs := setKeyS s.subscribed_symbols sym
      { security_id := security_id, exchange_segment := exchange_segment }
    let engs :=
      if containsKeyS s.engines sym then s.engines
      else s.engines ++ [(sym, mkEngine sym security_id)]
    ({ engines := engs, subscribed_symbols := subs }, .ok sym)

/-- One instrument of a `POST /api/subscribe/batch` payload. -/
structure BatchItem where
  symbol : String
  security_id : String
  exchange_segment : String
deriving DecidableEq, Repr

/-- The per-item body of the `subscribe_batch` loop; returns the updated state
and whether the symbol was counted in `added`. -/
def subscribeBatchStep (maxEngines : Nat) (s : GlobalState) (item : BatchItem) :
    GlobalState × Bool :=
  let sym := pyUpper item.symbol
  if sym = "" ∨ item.security_id = "" then (s, false)
  else if ¬ containsKeyS s.engines sym ∧ s.engines.length ≥ maxEngines then
    (s, false)  -- logged warning only; the loop continues
  else
    let subs := setKeyS s.subscribed_symbols sym
      { security_id := item.security_id, exchange_segment := item.exchange_segment }
    if containsKeyS s.engines sym then
      ({ s with subscribed_symbols := subs }, false)
    else
      ({ engines := s.engines ++ [(sym, mkEngine sym item.security_id)],
         subscribed_symbols := subs }, true)

/-- The loop of `subscribe_batch` folded over the instruments, accumulating
the state and `len(added)`. -/
def subscribeBatchLoop (maxEngines : Nat) (acc : GlobalState × Nat)
    (instruments : List BatchItem) : GlobalState × Nat :=
  instruments.foldl
    (fun acc item =>
      let r := subscribeBatchStep maxEngines acc.1 item
      (r.1, acc.2 + (if r.2 then 1 else 0)))
    acc

/-- `POST /api/subscribe/batch` (`subscribe_batch`): given a well-formed
instrument list the response is always `{"status": "ok", "subscribed": n}`
with `n` the number of newly added engines — an over-capacity instrument is
skipped with a server-side log only, never an HTTP error. -/
def subscribe_batch (maxEngines : Nat) (s : GlobalState) (instruments : List BatchItem) :
    GlobalState × EndpointResult Nat :=
  let r := subscribeBatchLoop maxEngines (s, 0) instruments
  (r.1, .ok r.2)

/-- The permitted `candle_seconds` values (`CANDLE_OPTIONS`). -/
def CANDLE_OPTIONS : List Nat := [60, 300, 600, 900, 1800, 2700, 3600, 7200]

/-- The engine mutation `update_settings` performs on every engine:
`eng.candles.clear(); eng.current_candle = None`. -/
def clearCandles (e : OrderFlowEngine) : OrderFlowEngine :=
  { e with candles := [], current_candle := none }

/-- `POST /api/settings` (`update_settings`): validate `candle_seconds`, set
it, clear every engine's candles and open candle; `subscribed_symbols` is
untouched. -/
def update_settings (s : GlobalState) (candleSeconds : Nat) (sec : Nat) :
    (GlobalState × Nat) × EndpointResult Nat :=
  if sec ∉ CANDLE_OPTIONS then ((s, candleSeconds), .error 400)
  else
    (({ engines := s.engines.map (fun p => (p.1, clearCandles p.2)),
        subscribed_symbols := s.subscribed_symbols }, sec), .ok sec)

/-- The engine mutation `_do_daily_reset` performs on every engine. -/
def clearEngineDaily (e : OrderFlowEngine) : OrderFlowEngine :=
  { e with candles := [], current_candle := none, cvd := 0,
           prev_volume := 0, prev_total_buy := 0, prev_total_sell := 0 }

/-- The state `_do_daily_reset` touches: the last-reset date token, the engine
registry and the snapshot directory (existence flag plus file names). -/
structure ResetState where
  last_reset_date : Option String
  engines : List (String × OrderFlowEngine)
  snapshot_dir_exists : Bool
  snapshot_files : List String
deriving DecidableEq, Repr

/-- `_do_daily_reset`, with `today` the current IST date string.  A `None`
`last_reset_date` (first run) only records the date; a stale non-`None` date
clears every engine and deletes the `.json` snapshot files. -/
def do_daily_reset (today : String) (s : ResetState) : ResetState :=
  if s.last_reset_date = some today then s
  else
    match s.last_reset_date with
    | some _ =>
        { last_reset_date := some today
          engines := s.engines.map (fun p => (p.1, clearEngineDaily p.2))
          snapshot_dir_exists := s.snapshot_dir_exists
          snapshot_files :=
            if s.snapshot_dir_exists then
              s.snapshot_files.filter (fun f => ! f.endsWith ".json")
            else s.snapshot_files }
    | none => { s with last_reset_date := some today }

/-! ## Observations used by the stated properties -/

/-- Sum of `buy_vol` over a level dict. -/
def levelsBuySum (ls : List (ℚ × FootprintLevel)) : ℚ :=
  (ls.map (fun p => p.2.buy_vol)).sum

/-- Sum of `sell_vol` over a level dict. -/
def levelsSellSum (ls : List (ℚ × FootprintLevel)) : ℚ :=
  (ls.map (fun p => p.2.sell_vol)).sum

/-- Level-aggregate consistency of one candle:
`Σ levels.buy_vol = buy_vol ∧ Σ levels.sell_vol = sell_vol`. -/
def CandleSums (c : FootprintCandle) : Prop :=
  levelsBuySum c.levels = c.buy_vol ∧ levelsSellSum c.levels = c.sell_vol

/-- Level-aggregate consistency of every candle held by the engine, open or
closed. -/
def EngineSums (e : OrderFlowEngine) : Prop :=
  (∀ c ∈ e.candles, CandleSums c) ∧ ∀ c, e.current_candle = some c → CandleSums c

/-- Number of levels of the open candle (0 when there is none). -/
def levelsLen (e : OrderFlowEngine) : Nat :=
  match e.current_candle with
  | none => 0
  | some c => c.levels.length

/-- `Σ (candle.buy_vol − candle.sell_vol)` over the stored closed candles. -/
def closedDeltaSum (e : OrderFlowEngine) : ℚ :=
  (e.candles.map FootprintCandle.delta).sum

/-- Delta of the open candle (0 when there is none). -/
def currentDelta (e : OrderFlowEngine) : ℚ :=
  match e.current_candle with
  | none => 0
  | some c => c.delta

/-- The CVD identity: the running `cvd` equals the sum of deltas over stored
closed candles plus the open candle's delta. -/
def CvdInvariant (e : OrderFlowEngine) : Prop :=
  e.cvd = closedDeltaSum e + currentDelta e

/-- The `open_time` values of the stored closed candles, oldest first. -/
def openTimes (e : OrderFlowEngine) : List Nat :=
  e.candles.map FootprintCandle.open_time

/-- Every stored closed candle opened strictly before the open candle (and
there is no stored candle while there has never been an open one). -/
def belowCurrent (e : OrderFlowEngine) : Prop :=
  match e.current_candle with
  | none => e.candles = []
  | some cur => ∀ c ∈ e.candles, c.open_time < cur.open_time

/-- The level stored at a price key (a zero level when the key is absent). -/
def levelAt (c : FootprintCandle) (k : ℚ) : FootprintLevel :=
  ((c.levels.find? (fun p => p.1 == k)).getD (k, { price := k })).2

/-- The open candle, defaulted (used only on concrete states that have one). -/
def currentCandleD (e : OrderFlowEngine) : FootprintCandle :=
  e.current_candle.getD { open_time := 0 }

/-- The `openInterest` field of a decoded quote (`none` on other results). -/
def quoteOpenInterest : ParseResult → Option Nat
  | .quote q => q.openInterest
  | _ => none

/-! ## Concrete inputs for counterexamples and witnesses -/

/-- Config with `MAX_LEVELS_PER_CANDLE = 2` (env-configurable), used to
exercise level eviction. -/
def cfgLevels2 : Config :=
  { candleSeconds := 60, imbalanceRatio := 3, maxCandles := 1000, maxLevels := 2 }

/-- Config with `MAX_CANDLES_PER_SYMBOL = 1` (env-configurable), used to
exercise candle pruning. -/
def cfgCandles1 : Config :=
  { candleSeconds := 60, imbalanceRatio := 3, maxCandles := 1, maxLevels := 500 }

/-- Three same-minute upticks at three distinct prices: with a 2-level cap the
third tick evicts the level at price 10. -/
def evictTicks : List Tick :=
  [{ ltp := 10, vol := 5, ts_ms := 0 },
   { ltp := 20, vol := 5, ts_ms := 1000 },
   { ltp := 30, vol := 5, ts_ms := 2000 }]

/-- Three upticks in three consecutive minutes: with a 1-candle cap the third
tick prunes the first closed candle. -/
def pruneTicks : List Tick :=
  [{ ltp := 10, vol := 10, ts_ms := 0 },
   { ltp := 20, vol := 10, ts_ms := 60000 },
   { ltp := 30, vol := 10, ts_ms := 120000 }]

/-- Ticks whose minute buckets arrive out of order (60 s, 0 s, 120 s). -/
def outOfOrderTicks : List Tick :=
  [{ ltp := 10, ts_ms := 60000 },
   { ltp := 10, ts_ms := 0 },
   { ltp := 10, ts_ms := 120000 }]

/-- §8 scenario 1: first tick of a fresh engine. -/
def scenarioTick1 : Tick :=
  { ltp := 100.05, bid := 100.00, ask := 100.05, vol := 10, ts_ms := 1000,
    cumulative_volume := some 10 }

/-- §8 scenario 2: the downtick that follows within the same minute. -/
def scenarioTick2 : Tick :=
  { ltp := 100.00, vol := 5, ts_ms := 2000, cumulative_volume := some 15 }

/-- A first tick whose price sits strictly below the quote mid
(`mid = (100 + 101)/2 = 100.5 > ltp = 100`). -/
def belowMidTick : Tick :=
  { ltp := 100, bid := 100, ask := 101, vol := 10, ts_ms := 1000 }

/-- A 58-byte quote frame whose `msg_len` header field is 0 but whose OI bytes
at offset 50 encode 1000. -/
def oiFrame : List Nat :=
  [4, 0, 0, 0, 7, 0, 0, 0] ++ List.replicate 42 0 ++ [232, 3, 0, 0] ++
    List.replicate 4 0

/-- The quote record `oiFrame` decodes to. -/
def oiQuote : QuoteData :=
  { securityId := 7, ltp_bits := 0, ltq := 0, ltt_ms := 0, atp_bits := 0,
    volume := 0, totalSellQty := 0, totalBuyQty := 0, dayOpen_bits := 0,
    dayClose_bits := 0, dayHigh_bits := 0, dayLow_bits := 0,
    openInterest := some 1000 }

/-- A registry already holding one engine (full when `MAX_ENGINES = 1`). -/
def fullState : GlobalState :=
  { engines := [("A", mkEngine "A" "1")],
    subscribed_symbols := [("A", { security_id := "1", exchange_segment := "NSE_FO" })] }

/-- A batch payload with a single new symbol. -/
def overCapBatch : List BatchItem :=
  [{ symbol := "B", security_id := "2", exchange_segment := "NSE_FO" }]

/-- A small registry used as witness input. -/
def twoEngineState : GlobalState :=
  { engines := [("A", mkEngine "A" "1"), ("B", mkEngine "B" "2")],
    subscribed_symbols := [("A", { security_id := "1", exchange_segment := "NSE_FO" }),
                          ("B", { security_id := "2", exchange_segment := "MCX_COMM" })] }

/-- An engine carrying a day of state (used as reset-witness input). -/
def staleEngine : OrderFlowEngine :=
  { symbol := "A", security_id := "1", cvd := 7, prev_volume := 3,
    candles := [{ open_time := 0 }],
    current_candle := some { open_time := 60000 } }

/-- A reset state dated yesterday relative to `"2026-10-12"`. -/
def staleResetState : ResetState :=
  { last_reset_date := some "2026-10-11",
    engines := [("A", staleEngine)],
    snapshot_dir_exists := true,
    snapshot_files := ["A.json", "keep.txt"] }

/-- A level with a 3:1 buy dominance (witness input for the imbalance rule). -/
def dominantLevel : FootprintLevel := { price := 100, buy_vol := 9, sell_vol := 3 }

/-! ## Helper lemmas about the stages of `process_tick` -/

theorem applyFlow_buy_vol (cfg : Config) (c : FootprintCandle) (ltp b s : ℚ)
    (toi : Option ℚ) (loi : ℚ) :
    (OrderFlowEngine.applyFlow cfg c ltp b s toi loi).buy_vol = c.buy_vol + b := by
  cases toi with
  | none => rfl
  | some v => simp only [OrderFlowEngine.applyFlow]; split <;> rfl

theorem applyFlow_sell_vol (cfg : Config) (c : FootprintCandle) (ltp b s : ℚ)
    (toi : Option ℚ) (loi : ℚ) :
    (OrderFlowEngine.applyFlow cfg c ltp b s toi loi).sell_vol = c.sell_vol + s := by
  cases toi with
  | none => rfl
  | some v => simp only [OrderFlowEngine.applyFlow]; split <;> rfl

theorem applyFlow_open_time (cfg : Config) (c : FootprintCandle) (ltp b s : ℚ)
    (toi : Option ℚ) (loi : ℚ) :
    (OrderFlowEngine.applyFlow cfg c ltp b s toi loi).open_time = c.open_time := by
  cases toi with
  | none => rfl
  | some v => simp only [OrderFlowEngine.applyFlow]; split <;> rfl

theorem applyFlow_delta (cfg : Config) (c : FootprintCandle) (ltp b s : ℚ)
    (toi : Option ℚ) (loi : ℚ) :
    (OrderFlowEngine.applyFlow cfg c ltp b s toi loi).delta = c.delta + (b - s) := by
  simp only [FootprintCandle.delta, applyFlow_buy_vol, applyFlow_sell_vol]
  ring

theorem applyFlow_levels (cfg : Config) (c : FootprintCandle) (ltp b s : ℚ)
    (toi : Option ℚ) (loi : ℚ) :
    (OrderFlowEngine.applyFlow cfg c ltp b s toi loi).levels =
      updateKey
        (if hasKey c.levels ((pyRound (ltp * 20) : ℚ) / 20) then c.levels
         else (if c.levels.length ≥ cfg.maxLevels then evictMin c.levels else c.levels) ++
           [(((pyRound (ltp * 20) : ℚ) / 20),
             { price := ((pyRound (ltp * 20) : ℚ) / 20) })])
        ((pyRound (ltp * 20) : ℚ) / 20)
        (fun lv => { lv with buy_vol := lv.buy_vol + b, sell_vol := lv.sell_vol + s }) := by
  cases toi with
  | none => rfl
  | some v => simp only [OrderFlowEngine.applyFlow]; split <;> rfl

theorem process_tick_candles (cfg : Config) (e : OrderFlowEngine) (t : Tick) :
    (OrderFlowEngine.process_tick cfg e t).candles =
      (OrderFlowEngine.rollCandles cfg e (OrderFlowEngine.candle_start cfg t.ts_ms) t.ltp).1 := rfl

theorem process_tick_current (cfg : Config) (e : OrderFlowEngine) (t : Tick) :
    (OrderFlowEngine.process_tick cfg e t).current_candle =
      some (OrderFlowEngine.applyFlow cfg
        (OrderFlowEngine.rollCandles cfg e (OrderFlowEngine.candle_start cfg t.ts_ms) t.ltp).2.1
        t.ltp
        (e.classify t (e.tradedVolume t).1).1
        (e.classify t (e.tradedVolume t).1).2
        t.oi
        (OrderFlowEngine.rollCandles cfg e (OrderFlowEngine.candle_start cfg t.ts_ms) t.ltp).2.2) := rfl

theorem process_tick_cvd (cfg : Config) (e : OrderFlowEngine) (t : Tick) :
    (OrderFlowEngine.process_tick cfg e t).cvd =
      e.cvd + (e.classify t (e.tradedVolume t).1).1 - (e.classify t (e.tradedVolume t).1).2 := rfl

/-! ## C5 — §8 downtick scenario -/

/-- C5 counterexample: after §8 scenario 1 followed by the same-minute
downtick, the candle has `delta_min = 0`, not the `5` the claim states
(`delta_min` is a running minimum seeded at 0, so it can never be positive). -/
theorem c5_counterexample :
    (currentCandleD (OrderFlowEngine.processTicks defaultConfig (mkEngine "NIFTY" "13")
        [scenarioTick1, scenarioTick2])).delta_min = 0 ∧ (0 : ℚ) ≠ 5 := by
  constructor
  · norm_num [OrderFlowEngine.processTicks, OrderFlowEngine.process_tick,
      OrderFlowEngine.tradedVolume, OrderFlowEngine.classify, OrderFlowEngine.candle_start,
      OrderFlowEngine.rollCandles, OrderFlowEngine.applyFlow, OrderFlowEngine.newCandle,
      OrderFlowEngine.finalizeCandle, pyRound, hasKey, updateKey, currentCandleD,
      mkEngine, scenarioTick1, scenarioTick2, defaultConfig, FootprintCandle.delta]
  · norm_num

/-- C5: starting from the state after §8 scenario 1, processing the
same-minute downtick `ltp=100.00, ltq=5, cumulative_volume=15` updates the
same candle: level `100.00` gets `sell_vol=5` (and no buy volume), the candle
delta is 5, `delta_max = 10`, `cvd = 5` — and `delta_min = 0` (the claim's
`delta_min = 5` is impossible: the running minimum starts at 0). -/
theorem c5_downtick_scenario :
    (OrderFlowEngine.processTicks defaultConfig (mkEngine "NIFTY" "13")
        [scenarioTick1, scenarioTick2]).candles = [] ∧
    (currentCandleD (OrderFlowEngine.processTicks defaultConfig (mkEngine "NIFTY" "13")
        [scenarioTick1, scenarioTick2])).open_time = 0 ∧
    (levelAt (currentCandleD (OrderFlowEngine.processTicks defaultConfig (mkEngine "NIFTY" "13")
        [scenarioTick1, scenarioTick2])) 100).sell_vol = 5 ∧
    (levelAt (currentCandleD (OrderFlowEngine.processTicks defaultConfig (mkEngine "NIFTY" "13")
        [scenarioTick1, scenarioTick2])) 100).buy_vol = 0 ∧
    (currentCandleD (OrderFlowEngine.processTicks defaultConfig (mkEngine "NIFTY" "13")
        [scenarioTick1, scenarioTick2])).delta = 5 ∧
    (currentCandleD (OrderFlowEngine.processTicks defaultConfig (mkEngine "NIFTY" "13")
        [scenarioTick1, scenarioTick2])).delta_max = 10 ∧
    (currentCandleD (OrderFlowEngine.processTicks defaultConfig (mkEngine "NIFTY" "13")
        [scenarioTick1, scenarioTick2])).delta_min = 0 ∧
    (OrderFlowEngine.processTicks defaultConfig (mkEngine "NIFTY" "13")
        [scenarioTick1, scenarioTick2]).cvd = 5 := by
  norm_num [OrderFlowEngine.processTicks, OrderFlowEngine.process_tick,
    OrderFlowEngine.tradedVolume, OrderFlowEngine.classify, OrderFlowEngine.candle_start,
    OrderFlowEngine.rollCandles, OrderFlowEngine.applyFlow, OrderFlowEngine.newCandle,
    OrderFlowEngine.finalizeCandle, pyRound, hasKey, updateKey, levelAt, currentCandleD,
    mkEngine, scenarioTick1, scenarioTick2, defaultConfig, FootprintCandle.delta]

/-! ## C3 — first-tick classification -/

/-- C3 counterexample: a fresh engine (`last_ltp = 0`) receives a first tick
whose price sits strictly below the quote mid (`100 < 100.5`); the Lee-Ready
mid branch would classify it as sell, but all 10 units land on the buy side of
the candle (the `ltp > last_ltp` price-increase rule fires against the
implicit `last_ltp = 0`). -/
theorem c3_counterexample :
    belowMidTick.ltp < (belowMidTick.bid + belowMidTick.ask) / 2 ∧
    (mkEngine "NIFTY" "13").last_ltp = 0 ∧
    (currentCandleD (OrderFlowEngine.process_tick defaultConfig (mkEngine "NIFTY" "13")
        belowMidTick)).buy_vol = 10 ∧
    (currentCandleD (OrderFlowEngine.process_tick defaultConfig (mkEngine "NIFTY" "13")
        belowMidTick)).sell_vol = 0 := by
  norm_num [OrderFlowEngine.process_tick, OrderFlowEngine.tradedVolume,
    OrderFlowEngine.classify, OrderFlowEngine.candle_start, OrderFlowEngine.rollCandles,
    OrderFlowEngine.applyFlow, OrderFlowEngine.newCandle, pyRound, hasKey, updateKey,
    currentCandleD, mkEngine, belowMidTick, defaultConfig]

/-- C3 (amended): on the first tick of a fresh engine (`last_ltp = 0`) with
`ltp > 0`, the whole traded volume (the LTQ fallback, since `prev_volume = 0`)
is attributed to buy by the price-increase rule — the Lee-Ready mid branch is
reached only when `ltp = 0`. -/
theorem c3_first_tick_buy (cfg : Config) (sym sid : String) (t : Tick)
    (h : 0 < t.ltp) :
    (OrderFlowEngine.process_tick cfg (mkEngine sym sid) t).cvd = t.vol ∧
    ∀ c, (OrderFlowEngine.process_tick cfg (mkEngine sym sid) t).current_candle = some c →
      c.buy_vol = t.vol ∧ c.sell_vol = 0 := by
  have hdv : ((mkEngine sym sid).tradedVolume t).1 = t.vol := by
    simp only [OrderFlowEngine.tradedVolume, mkEngine]
    cases t.cumulative_volume with
    | none => rfl
    | some cv => norm_num
  have hcls : (mkEngine sym sid).classify t ((mkEngine sym sid).tradedVolume t).1 =
      (t.vol, 0) := by
    rw [hdv]
    simp [OrderFlowEngine.classify, mkEngine, h, lt_irrefl]
  refine ⟨?_, ?_⟩
  · rw [process_tick_cvd, hcls]
    simp [mkEngine]
  · intro c hc
    rw [process_tick_current] at hc
    have hc2 := Option.some.inj hc
    subst hc2
    have hroll : OrderFlowEngine.rollCandles cfg (mkEngine sym sid)
        (OrderFlowEngine.candle_start cfg t.ts_ms) t.ltp =
        ((mkEngine sym sid).candles,
          OrderFlowEngine.newCandle (OrderFlowEngine.candle_start cfg t.ts_ms) t.ltp,
          (mkEngine sym sid).last_oi) := by
      simp [OrderFlowEngine.rollCandles, mkEngine]
    rw [hroll, hcls]
    constructor
    · rw [applyFlow_buy_vol]
      simp [OrderFlowEngine.newCandle]
    · rw [applyFlow_sell_vol]
      simp [OrderFlowEngine.newCandle]

/-- Witness for the amended C3 at a concrete first tick. -/
theorem c3_first_tick_buy_witness :
    (0 : ℚ) < belowMidTick.ltp ∧
    ((OrderFlowEngine.process_tick defaultConfig (mkEngine "N" "1") belowMidTick).cvd =
        belowMidTick.vol ∧
      ∀ c, (OrderFlowEngine.process_tick defaultConfig (mkEngine "N" "1")
          belowMidTick).current_candle = some c →
        c.buy_vol = belowMidTick.vol ∧ c.sell_vol = 0) :=
  ⟨by norm_num [belowMidTick],
   c3_first_tick_buy defaultConfig "N" "1" belowMidTick (by norm_num [belowMidTick])⟩

/-! ## C6 — derived level imbalance -/

/-- C6: for any imbalance ratio `R > 1` (the configured default is 3), a level
is flagged buy iff `sell_vol > 0 ∧ buy_vol / sell_vol ≥ R`, sell iff the
symmetric condition holds, and none otherwise; a level with one side zero and
the other positive is never flagged. -/
theorem c6_imbalance_rule (R : ℚ) (hR : 1 < R) (lv : FootprintLevel) :
    (lv.imbalance R = some .buy ↔ lv.sell_vol > 0 ∧ lv.buy_vol / lv.sell_vol ≥ R) ∧
    (lv.imbalance R = some .sell ↔ lv.buy_vol > 0 ∧ lv.sell_vol / lv.buy_vol ≥ R) ∧
    (lv.imbalance R = none ↔
      ¬ (lv.sell_vol > 0 ∧ lv.buy_vol / lv.sell_vol ≥ R) ∧
      ¬ (lv.buy_vol > 0 ∧ lv.sell_vol / lv.buy_vol ≥ R)) ∧
    (lv.buy_vol > 0 → lv.sell_vol = 0 → lv.imbalance R = none) ∧
    (lv.sell_vol > 0 → lv.buy_vol = 0 → lv.imbalance R = none) := by
  have hexcl : ¬ ((lv.sell_vol > 0 ∧ lv.buy_vol / lv.sell_vol ≥ R) ∧
      (lv.buy_vol > 0 ∧ lv.sell_vol / lv.buy_vol ≥ R)) := by
    rintro ⟨⟨hs, hb⟩, hbp, hsl⟩
    have hle1 : R * lv.sell_vol ≤ lv.buy_vol := (le_div_iff₀ hs).mp hb
    have hle2 : R * lv.buy_vol ≤ lv.sell_vol := (le_div_iff₀ hbp).mp hsl
    nlinarith
  by_cases h1 : lv.sell_vol > 0 ∧ lv.buy_vol / lv.sell_vol ≥ R <;>
    by_cases h2 : lv.buy_vol > 0 ∧ lv.sell_vol / lv.buy_vol ≥ R
  · exact absurd ⟨h1, h2⟩ hexcl
  · refine ⟨by simp [FootprintLevel.imbalance, h1], by simp [FootprintLevel.imbalance, h1, h2],
      by simp [FootprintLevel.imbalance, h1, h2], ?_, ?_⟩
    · intro _ hs0
      rw [hs0] at h1
      simp at h1
    · intro hsp hb0
      rcases h1 with ⟨hs, hble⟩
      rw [hb0, zero_div] at hble
      linarith
  · refine ⟨by simp [FootprintLevel.imbalance, h1, h2], by simp [FootprintLevel.imbalance, h1, h2],
      by simp [FootprintLevel.imbalance, h1, h2], ?_, ?_⟩
    · intro hbp hs0
      rcases h2 with ⟨_, hle⟩
      rw [hs0, zero_div] at hle
      linarith
    · intro hsp hb0
      rcases h2 with ⟨hb2, _⟩
      rw [hb0] at hb2
      exact absurd hb2 (lt_irrefl 0)
  · refine ⟨by simp [FootprintLevel.imbalance, h1, h2], by simp [FootprintLevel.imbalance, h1, h2],
      by simp [FootprintLevel.imbalance, h1, h2], ?_, ?_⟩
    · intro _ _
      simp [FootprintLevel.imbalance, h1, h2]
    · intro _ _
      simp [FootprintLevel.imbalance, h1, h2]

/-- Witness for C6 at `R = 3` on a 9-vs-3 level. -/
theorem c6_imbalance_rule_witness :
    (1 : ℚ) < 3 ∧
    ((dominantLevel.imbalance 3 = some .buy ↔
        dominantLevel.sell_vol > 0 ∧ dominantLevel.buy_vol / dominantLevel.sell_vol ≥ 3) ∧
      (dominantLevel.imbalance 3 = some .sell ↔
        dominantLevel.buy_vol > 0 ∧ dominantLevel.sell_vol / dominantLevel.buy_vol ≥ 3) ∧
      (dominantLevel.imbalance 3 = none ↔
        ¬ (dominantLevel.sell_vol > 0 ∧ dominantLevel.buy_vol / dominantLevel.sell_vol ≥ 3) ∧
        ¬ (dominantLevel.buy_vol > 0 ∧ dominantLevel.sell_vol / dominantLevel.buy_vol ≥ 3)) ∧
      (dominantLevel.buy_vol > 0 → dominantLevel.sell_vol = 0 →
        dominantLevel.imbalance 3 = none) ∧
      (dominantLevel.sell_vol > 0 → dominantLevel.buy_vol = 0 →
        dominantLevel.imbalance 3 = none)) :=
  ⟨by norm_num, c6_imbalance_rule 3 (by norm_num) dominantLevel⟩

/-! ## C7 — daily-reset idempotence -/

/-- C7: a second reset call within the same IST date is a no-op; a first-ever
call (empty `last_reset_date`) only records the date; a call that observes a
stale non-empty date clears every engine (candles, open candle, cvd,
prev_volume) and removes every `.json` snapshot file. -/
theorem c7_daily_reset (today : String) (s : ResetState) :
    do_daily_reset today (do_daily_reset today s) = do_daily_reset today s ∧
    (s.last_reset_date = none →
      do_daily_reset today s = { s with last_reset_date := some today }) ∧
    (∀ d, s.last_reset_date = some d → d ≠ today →
      (do_daily_reset today s).last_reset_date = some today ∧
      (∀ p ∈ (do_daily_reset today s).engines,
        p.2.candles = [] ∧ p.2.current_candle = none ∧ p.2.cvd = 0 ∧
          p.2.prev_volume = 0) ∧
      (s.snapshot_dir_exists = true →
        ∀ f ∈ (do_daily_reset today s).snapshot_files, f.endsWith ".json" = false)) := by
  have hfix : ∀ s2 : ResetState, s2.last_reset_date = some today →
      do_daily_reset today s2 = s2 := by
    intro s2 h2
    simp [do_daily_reset, h2]
  rcases hld : s.last_reset_date with _ | d
  · have hstep : do_daily_reset today s = { s with last_reset_date := some today } := by
      simp [do_daily_reset, hld]
    refine ⟨?_, fun _ => hstep, ?_⟩
    · rw [hstep]
      exact hfix _ rfl
    · intro d hd
      cases hd
  · by_cases hdt : d = today
    · have hs : do_daily_reset today s = s := hfix s (by rw [hld, hdt])
      refine ⟨by rw [hs, hs], ?_, ?_⟩
      · intro h
        cases h
      · intro d2 hd2 hne
        cases hd2
        exact absurd hdt hne
    · have hcond : s.last_reset_date ≠ some today := by
        rw [hld]
        intro h
        cases h
        exact hdt rfl
      have hstep : do_daily_reset today s =
          { last_reset_date := some today
            engines := s.engines.map (fun p => (p.1, clearEngineDaily p.2))
            snapshot_dir_exists := s.snapshot_dir_exists
            snapshot_files :=
              if s.snapshot_dir_exists then
                s.snapshot_files.filter (fun f => ! f.endsWith ".json")
              else s.snapshot_files } := by
        rw [do_daily_reset, if_neg hcond, hld]
      refine ⟨?_, ?_, ?_⟩
      · rw [hstep]
        exact hfix _ rfl
      · intro h
        cases h
      · intro d2 hd2 hne
        rw [hstep]
        refine ⟨rfl, ?_, ?_⟩
        · intro p hp
          simp only [List.mem_map] at hp
          obtain ⟨q, _, rfl⟩ := hp
          exact ⟨rfl, rfl, rfl, rfl⟩
        · intro hdir f hf
          simp only [hdir, if_true] at hf
          have := (List.mem_filter.mp hf).2
          simpa using this

/-- Witness for C7 on a stale state dated 2026-10-11 reset on 2026-10-12. -/
theorem c7_daily_reset_witness :
    do_daily_reset "2026-10-12" (do_daily_reset "2026-10-12" staleResetState) =
      do_daily_reset "2026-10-12" staleResetState ∧
    (staleResetState.last_reset_date = none →
      do_daily_reset "2026-10-12" staleResetState =
        { staleResetState with last_reset_date := some "2026-10-12" }) ∧
    (∀ d, staleResetState.last_reset_date = some d → d ≠ "2026-10-12" →
      (do_daily_reset "2026-10-12" staleResetState).last_reset_date = some "2026-10-12" ∧
      (∀ p ∈ (do_daily_reset "2026-10-12" staleResetState).engines,
        p.2.candles = [] ∧ p.2.current_candle = none ∧ p.2.cvd = 0 ∧
          p.2.prev_volume = 0) ∧
      (staleResetState.snapshot_dir_exists = true →
        ∀ f ∈ (do_daily_reset "2026-10-12" staleResetState).snapshot_files,
          f.endsWith ".json" = false)) :=
  c7_daily_reset "2026-10-12" staleResetState

/-! ## C8 — quote-frame open interest -/

/-- C8 counterexample: `oiFrame` has `msg_len = 0` in its header (so the claim
requires the emitted `open_interest` to be absent), yet the decoder emits
`open_interest = 1000` — the source gates the OI read on the raw byte length,
never on the `msg_len` header field. -/
theorem c8_counterexample :
    getU16 oiFrame 1 = 0 ∧ ¬ 54 ≤ getU16 oiFrame 1 ∧
    quoteOpenInterest (parse_dhan_binary oiFrame) = some 1000 := by decide

/-- C8 (amended): whenever a frame decodes as a quote, the frame is at least
58 bytes long, and `open_interest` is emitted iff the u32 at the OI offset
satisfies `0 < oi ≤ 1e8` (the `len ≥ 54` check is then vacuous, and the
`msg_len` header field is not consulted); the rest of the quote is emitted
either way. -/
theorem c8_quote_oi (raw : List Nat) (q : QuoteData)
    (h : parse_dhan_binary raw = .quote q) :
    58 ≤ raw.length ∧
    q.openInterest = (if 0 < getU32 raw 50 ∧ getU32 raw 50 ≤ 100000000
      then some (getU32 raw 50) else none) ∧
    q.securityId = getU32 raw 4 ∧ q.volume = getU32 raw 22 := by
  simp only [parse_dhan_binary] at h
  by_cases hlen : raw.length < 8
  · rw [if_pos hlen] at h
    cases h
  · rw [if_neg hlen] at h
    by_cases h2 : getU8 raw 0 = 2 ∧ raw.length ≥ 8 + 8
    · rw [if_pos h2] at h
      cases h
    · rw [if_neg h2] at h
      by_cases h4 : getU8 raw 0 = 4 ∧ raw.length ≥ 8 + 50
      · rw [if_pos h4] at h
        have h58 : 58 ≤ raw.length := h4.2
        have h54 : 54 ≤ raw.length := by omega
        cases h
        refine ⟨h58, ?_, rfl, rfl⟩
        simp [h54]
      · rw [if_neg h4] at h
        cases h

/-- Witness for the amended C8 on the concrete frame `oiFrame`. -/
theorem c8_quote_oi_witness :
    58 ≤ oiFrame.length ∧
    oiQuote.openInterest = (if 0 < getU32 oiFrame 50 ∧ getU32 oiFrame 50 ≤ 100000000
      then some (getU32 oiFrame 50) else none) ∧
    oiQuote.securityId = getU32 oiFrame 4 ∧ oiQuote.volume = getU32 oiFrame 22 :=
  c8_quote_oi oiFrame oiQuote (by decide)

/-! ## C9 — subscribe capacity -/

/-- C9 counterexample: with `MAX_ENGINES = 1` and a full registry, batch
subscribing a new symbol returns the normal `{"status": "ok", "subscribed": 0}`
response — no HTTP error reaches the caller (the skip is only logged), though
the claim promises an error for the batch path too.  The state is unchanged. -/
theorem c9_counterexample :
    subscribe_batch 1 fullState overCapBatch = (fullState, .ok 0) := by decide

/-- Over-capacity batch items with unknown symbols are skipped without
touching the state or the added-count. -/
theorem subscribeBatchLoop_skips_when_full (maxE : Nat) (s : GlobalState)
    (hfull : maxE ≤ s.engines.length) :
    ∀ (items : List BatchItem) (n : Nat),
      (∀ it ∈ items, containsKeyS s.engines (pyUpper it.symbol) = false) →
      subscribeBatchLoop maxE (s, n) items = (s, n) := by
  intro items
  induction items with
  | nil => intro n _; rfl
  | cons it rest ih =>
      intro n hall
      have hstep : subscribeBatchStep maxE s it = (s, false) := by
        rw [subscribeBatchStep]
        by_cases he : pyUpper it.symbol = "" ∨ it.security_id = ""
        · rw [if_pos he]
        · rw [if_neg he, if_pos ?_]
          constructor
          · simp [hall it (List.mem_cons_self it rest)]
          · exact hfull
      have hrest : ∀ it2 ∈ rest, containsKeyS s.engines (pyUpper it2.symbol) = false :=
        fun it2 h2 => hall it2 (List.mem_cons_of_mem it h2)
      have hcons : subscribeBatchLoop maxE (s, n) (it :: rest) =
          subscribeBatchLoop maxE (s, n) rest := by
        simp only [subscribeBatchLoop, List.foldl_cons, hstep]
        norm_num
      rw [hcons]
      exact ih n hrest

/-- C9 (amended): an over-capacity single subscribe fails with an HTTP 503
visible to the caller and leaves the registry and subscription map unchanged;
an over-capacity batch subscribe also leaves the state unchanged but reports
plain success (`ok` with 0 added) — the skip is visible only in the count. -/
theorem c9_capacity (maxE : Nat) (s : GlobalState) (symbol sid seg : String)
    (hfull : maxE ≤ s.engines.length)
    (hnew : containsKeyS s.engines (pyUpper symbol) = false)
    (hsym : pyUpper symbol ≠ "") (hsid : sid ≠ "")
    (items : List BatchItem)
    (hitems : ∀ it ∈ items, containsKeyS s.engines (pyUpper it.symbol) = false) :
    subscribe maxE s symbol sid seg = (s, .error 503) ∧
    subscribe_batch maxE s items = (s, .ok 0) := by
  constructor
  · rw [subscribe]
    rw [if_neg (by simp [hsym, hsid]), if_pos ⟨by simp [hnew], hfull⟩]
  · rw [subscribe_batch, subscribeBatchLoop_skips_when_full maxE s hfull items 0 hitems]

/-- Witness for the amended C9 on the concrete full registry. -/
theorem c9_capacity_witness :
    1 ≤ fullState.engines.length ∧
    subscribe 1 fullState "B" "2" "NSE_FO" = (fullState, .error 503) ∧
    subscribe_batch 1 fullState overCapBatch = (fullState, .ok 0) :=
  ⟨by decide,
   c9_capacity 1 fullState "B" "2" "NSE_FO" (by decide) (by decide) (by decide)
     (by decide) overCapBatch (by decide)⟩

/-! ## C10 — settings update frame effect -/

/-- C10: a successful `candle_seconds` update (any permitted value, including
the one already in effect) clears every engine's closed candles and open
candle, while cvd, tick_count, last_ltp, prev_volume and the subscription map
are left unchanged. -/
theorem c10_update_settings (s : GlobalState) (cur sec : Nat)
    (h : sec ∈ CANDLE_OPTIONS) :
    (update_settings s cur sec).2 = .ok sec ∧
    (update_settings s cur sec).1.2 = sec ∧
    (update_settings s cur sec).1.1.subscribed_symbols = s.subscribed_symbols ∧
    (update_settings s cur sec).1.1.engines =
      s.engines.map (fun p => (p.1, clearCandles p.2)) ∧
    ∀ e : OrderFlowEngine,
      (clearCandles e).candles = [] ∧ (clearCandles e).current_candle = none ∧
      (clearCandles e).cvd = e.cvd ∧ (clearCandles e).tick_count = e.tick_count ∧
      (clearCandles e).last_ltp = e.last_ltp ∧
      (clearCandles e).prev_volume = e.prev_volume := by
  have hns : ¬ sec ∉ CANDLE_OPTIONS := not_not_intro h
  rw [update_settings, if_neg hns]
  exact ⟨rfl, rfl, rfl, rfl, fun e => ⟨rfl, rfl, rfl, rfl, rfl, rfl⟩⟩

/-- Witness for C10: re-setting the already-active 60-second bucket still
clears candles and preserves the rest. -/
theorem c10_update_settings_witness :
    (update_settings twoEngineState 60 60).2 = .ok 60 ∧
    (update_settings twoEngineState 60 60).1.2 = 60 ∧
    (update_settings twoEngineState 60 60).1.1.subscribed_symbols =
      twoEngineState.subscribed_symbols ∧
    (update_settings twoEngineState 60 60).1.1.engines =
      twoEngineState.engines.map (fun p => (p.1, clearCandles p.2)) ∧
    ∀ e : OrderFlowEngine,
      (clearCandles e).candles = [] ∧ (clearCandles e).current_candle = none ∧
      (clearCandles e).cvd = e.cvd ∧ (clearCandles e).tick_count = e.tick_count ∧
      (clearCandles e).last_ltp = e.last_ltp ∧
      (clearCandles e).prev_volume = e.prev_volume :=
  c10_update_settings twoEngineState 60 60 (by decide)

/-! ## C1 — level-aggregate consistency -/

theorem updateKey_length (ls : List (ℚ × FootprintLevel)) (k : ℚ)
    (f : FootprintLevel → FootprintLevel) :
    (updateKey ls k f).length = ls.length := by
  induction ls with
  | nil => rfl
  | cons p ps ih =>
      by_cases hp : p.1 = k
      · simp [updateKey, hp]
      · simp [updateKey, hp, ih]

theorem updateKey_buySum (ls : List (ℚ × FootprintLevel)) (k b s : ℚ)
    (h : hasKey ls k = true) :
    levelsBuySum (updateKey ls k
      (fun lv => { lv with buy_vol := lv.buy_vol + b, sell_vol := lv.sell_vol + s })) =
      levelsBuySum ls + b := by
  induction ls with
  | nil => simp [hasKey] at h
  | cons p ps ih =>
      by_cases hp : p.1 = k
      · simp only [updateKey, if_pos hp, levelsBuySum, List.map_cons, List.sum_cons]
        ring
      · have h2 : hasKey ps k = true := by
          simpa [hasKey, hp] using h
        simp only [updateKey, if_neg hp, levelsBuySum, List.map_cons, List.sum_cons] at ih ⊢
        rw [ih h2]
        ring

theorem updateKey_sellSum (ls : List (ℚ × FootprintLevel)) (k b s : ℚ)
    (h : hasKey ls k = true) :
    levelsSellSum (updateKey ls k
      (fun lv => { lv with buy_vol := lv.buy_vol + b, sell_vol := lv.sell_vol + s })) =
      levelsSellSum ls + s := by
  induction ls with
  | nil => simp [hasKey] at h
  | cons p ps ih =>
      by_cases hp : p.1 = k
      · simp only [updateKey, if_pos hp, levelsSellSum, List.map_cons, List.sum_cons]
        ring
      · have h2 : hasKey ps k = true := by
          simpa [hasKey, hp] using h
        simp only [updateKey, if_neg hp, levelsSellSum, List.map_cons, List.sum_cons] at ih ⊢
        rw [ih h2]
        ring

theorem hasKey_append_self (ls : List (ℚ × FootprintLevel)) (k : ℚ)
    (v : FootprintLevel) : hasKey (ls ++ [(k, v)]) k = true := by
  simp [hasKey]

theorem levelsBuySum_append (ls ls2 : List (ℚ × FootprintLevel)) :
    levelsBuySum (ls ++ ls2) = levelsBuySum ls + levelsBuySum ls2 := by
  simp [levelsBuySum]

theorem levelsSellSum_append (ls ls2 : List (ℚ × FootprintLevel)) :
    levelsSellSum (ls ++ ls2) = levelsSellSum ls + levelsSellSum ls2 := by
  simp [levelsSellSum]

/-- The per-candle update preserves the level-aggregate identity and grows
the level dict by at most one entry, provided the eviction cap is not hit. -/
theorem applyFlow_sums (cfg : Config) (c : FootprintCandle) (ltp b s : ℚ)
    (toi : Option ℚ) (loi : ℚ) (hc : CandleSums c)
    (hLen : c.levels.length < cfg.maxLevels) :
    CandleSums (OrderFlowEngine.applyFlow cfg c ltp b s toi loi) ∧
    (OrderFlowEngine.applyFlow cfg c ltp b s toi loi).levels.length ≤
      c.levels.length + 1 := by
  obtain ⟨hB, hS⟩ := hc
  unfold CandleSums
  rw [applyFlow_levels, applyFlow_buy_vol, applyFlow_sell_vol]
  by_cases hk : hasKey c.levels ((pyRound (ltp * 20) : ℚ) / 20) = true
  · rw [if_pos hk]
    refine ⟨⟨?_, ?_⟩, ?_⟩
    · rw [updateKey_buySum _ _ _ _ hk, hB]
    · rw [updateKey_sellSum _ _ _ _ hk, hS]
    · rw [updateKey_length]
      omega
  · rw [if_neg hk, if_neg (not_le.mpr hLen)]
    have hk2 := hasKey_append_self c.levels ((pyRound (ltp * 20) : ℚ) / 20)
      { price := (pyRound (ltp * 20) : ℚ) / 20 }
    refine ⟨⟨?_, ?_⟩, ?_⟩
    · rw [updateKey_buySum _ _ _ _ hk2, levelsBuySum_append, hB]
      simp [levelsBuySum]
    · rw [updateKey_sellSum _ _ _ _ hk2, levelsSellSum_append, hS]
      simp [levelsSellSum]
    · rw [updateKey_length, List.length_append, List.length_singleton]

theorem finalizeCandle_sums (c : FootprintCandle) (h : CandleSums c) :
    CandleSums (OrderFlowEngine.finalizeCandle c) := h

theorem newCandle_sums (candle_ts : Nat) (ltp : ℚ) :
    CandleSums (OrderFlowEngine.newCandle candle_ts ltp) := by
  constructor <;> rfl

theorem pruneCandles_subset (cfg : Config) (cs : List FootprintCandle) :
    ∀ c ∈ OrderFlowEngine.pruneCandles cfg cs, c ∈ cs := by
  intro c hc
  unfold OrderFlowEngine.pruneCandles at hc
  split at hc
  · exact List.drop_subset _ _ hc
  · exact hc

/-- One `process_tick` preserves the level-aggregate invariant when the open
candle is strictly below the level cap, and grows the open level dict by at
most one entry. -/
theorem process_tick_sums (cfg : Config) (e : OrderFlowEngine) (t : Tick)
    (h : EngineSums e) (hLen : levelsLen e < cfg.maxLevels) :
    EngineSums (OrderFlowEngine.process_tick cfg e t) ∧
    levelsLen (OrderFlowEngine.process_tick cfg e t) ≤ levelsLen e + 1 := by
  obtain ⟨hcand, hcur⟩ := h
  have hmax0 : 0 < cfg.maxLevels := Nat.lt_of_le_of_lt (Nat.zero_le _) hLen
  rcases hc : e.current_candle with _ | c
  · have hroll : OrderFlowEngine.rollCandles cfg e
        (OrderFlowEngine.candle_start cfg t.ts_ms) t.ltp =
        (e.candles, OrderFlowEngine.newCandle
          (OrderFlowEngine.candle_start cfg t.ts_ms) t.ltp, e.last_oi) := by
      simp [OrderFlowEngine.rollCandles, hc]
    have happ := applyFlow_sums cfg
      (OrderFlowEngine.newCandle (OrderFlowEngine.candle_start cfg t.ts_ms) t.ltp)
      t.ltp (e.classify t (e.tradedVolume t).1).1 (e.classify t (e.tradedVolume t).1).2
      t.oi e.last_oi (newCandle_sums _ _) (by simpa [OrderFlowEngine.newCandle] using hmax0)
    refine ⟨⟨?_, ?_⟩, ?_⟩
    · rw [process_tick_candles, hroll]
      exact hcand
    · intro c2 hc2
      rw [process_tick_current, hroll] at hc2
      cases hc2
      exact happ.1
    · rw [show levelsLen (OrderFlowEngine.process_tick cfg e t) =
          (OrderFlowEngine.applyFlow cfg
            (OrderFlowEngine.rollCandles cfg e
              (OrderFlowEngine.candle_start cfg t.ts_ms) t.ltp).2.1 t.ltp
            (e.classify t (e.tradedVolume t).1).1 (e.classify t (e.tradedVolume t).1).2
            t.oi (OrderFlowEngine.rollCandles cfg e
              (OrderFlowEngine.candle_start cfg t.ts_ms) t.ltp).2.2).levels.length
          from rfl]
      rw [hroll]
      calc (OrderFlowEngine.applyFlow cfg _ t.ltp _ _ t.oi _).levels.length
          ≤ (OrderFlowEngine.newCandle (OrderFlowEngine.candle_start cfg t.ts_ms)
              t.ltp).levels.length + 1 := happ.2
        _ ≤ levelsLen e + 1 := by simp [OrderFlowEngine.newCandle, levelsLen, hc]
  · have hcs : CandleSums c := hcur c hc
    have hLenc : c.levels.length < cfg.maxLevels := by
      simpa [levelsLen, hc] using hLen
    by_cases hts : c.open_time = OrderFlowEngine.candle_start cfg t.ts_ms
    · have hroll : OrderFlowEngine.rollCandles cfg e
          (OrderFlowEngine.candle_start cfg t.ts_ms) t.ltp =
          (e.candles, c, e.last_oi) := by
        simp [OrderFlowEngine.rollCandles, hc, hts]
      have happ := applyFlow_sums cfg c t.ltp
        (e.classify t (e.tradedVolume t).1).1 (e.classify t (e.tradedVolume t).1).2
        t.oi e.last_oi hcs hLenc
      refine ⟨⟨?_, ?_⟩, ?_⟩
      · rw [process_tick_candles, hroll]
        exact hcand
      · intro c2 hc2
        rw [process_tick_current, hroll] at hc2
        cases hc2
        exact happ.1
      · rw [show levelsLen (OrderFlowEngine.process_tick cfg e t) =
            (OrderFlowEngine.applyFlow cfg
              (OrderFlowEngine.rollCandles cfg e
                (OrderFlowEngine.candle_start cfg t.ts_ms) t.ltp).2.1 t.ltp
              (e.classify t (e.tradedVolume t).1).1 (e.classify t (e.tradedVolume t).1).2
              t.oi (OrderFlowEngine.rollCandles cfg e
                (OrderFlowEngine.candle_start cfg t.ts_ms) t.ltp).2.2).levels.length
            from rfl]
        rw [hroll]
        calc (OrderFlowEngine.applyFlow cfg c t.ltp _ _ t.oi _).levels.length
            ≤ c.levels.length + 1 := happ.2
          _ = levelsLen e + 1 := by simp [levelsLen, hc]
    · have hroll : OrderFlowEngine.rollCandles cfg e
          (OrderFlowEngine.candle_start cfg t.ts_ms) t.ltp =
          (OrderFlowEngine.pruneCandles cfg
            (e.candles ++ [OrderFlowEngine.finalizeCandle c]),
           OrderFlowEngine.newCandle (OrderFlowEngine.candle_start cfg t.ts_ms) t.ltp,
           (OrderFlowEngine.finalizeCandle c).oi) := by
        simp [OrderFlowEngine.rollCandles, hc, hts]
      have happ := applyFlow_sums cfg
        (OrderFlowEngine.newCandle (OrderFlowEngine.candle_start cfg t.ts_ms) t.ltp)
        t.ltp (e.classify t (e.tradedVolume t).1).1 (e.classify t (e.tradedVolume t).1).2
        t.oi (OrderFlowEngine.finalizeCandle c).oi (newCandle_sums _ _)
        (by simpa [OrderFlowEngine.newCandle] using hmax0)
      refine ⟨⟨?_, ?_⟩, ?_⟩
      · rw [process_tick_candles, hroll]
        intro c2 hc2
        have hc3 := pruneCandles_subset cfg _ c2 hc2
        rcases List.mem_append.mp hc3 with hmem | hmem
        · exact hcand c2 hmem
        · rw [List.mem_singleton.mp hmem]
          exact finalizeCandle_sums c hcs
      · intro c2 hc2
        rw [process_tick_current, hroll] at hc2
        cases hc2
        exact happ.1
      · rw [show levelsLen (OrderFlowEngine.process_tick cfg e t) =
            (OrderFlowEngine.applyFlow cfg
              (OrderFlowEngine.rollCandles cfg e
                (OrderFlowEngine.candle_start cfg t.ts_ms) t.ltp).2.1 t.ltp
              (e.classify t (e.tradedVolume t).1).1 (e.classify t (e.tradedVolume t).1).2
              t.oi (OrderFlowEngine.rollCandles cfg e
                (OrderFlowEngine.candle_start cfg t.ts_ms) t.ltp).2.2).levels.length
            from rfl]
        rw [hroll]
        calc (OrderFlowEngine.applyFlow cfg _ t.ltp _ _ t.oi _).levels.length
            ≤ (OrderFlowEngine.newCandle (OrderFlowEngine.candle_start cfg t.ts_ms)
                t.ltp).levels.length + 1 := happ.2
          _ ≤ levelsLen e + 1 := by simp [OrderFlowEngine.newCandle, levelsLen, hc]

/-- Folding `process_tick` preserves the level-aggregate invariant while the
level budget lasts. -/
theorem processTicks_sums (cfg : Config) (ts : List Tick) :
    ∀ e : OrderFlowEngine, EngineSums e →
      levelsLen e + ts.length ≤ cfg.maxLevels →
      EngineSums (OrderFlowEngine.processTicks cfg e ts) := by
  induction ts with
  | nil => intro e h _; exact h
  | cons t rest ih =>
      intro e h hb
      simp only [List.length_cons] at hb
      have hLen : levelsLen e < cfg.maxLevels := by omega
      obtain ⟨h1, h2⟩ := process_tick_sums cfg e t h hLen
      have hstep : OrderFlowEngine.processTicks cfg e (t :: rest) =
          OrderFlowEngine.processTicks cfg (OrderFlowEngine.process_tick cfg e t) rest := rfl
      rw [hstep]
      exact ih _ h1 (by omega)

set_option maxHeartbeats 2000000 in
/-- C1 counterexample: with `MAX_LEVELS_PER_CANDLE = 2`, the third distinct
price of the minute evicts the lowest-price level, whose 5 units stay in the
candle totals: the level sum is 10 while the candle records 15. -/
theorem c1_counterexample :
    levelsBuySum (currentCandleD (OrderFlowEngine.processTicks cfgLevels2
      (mkEngine "A" "1") evictTicks)).levels = 10 ∧
    (currentCandleD (OrderFlowEngine.processTicks cfgLevels2
      (mkEngine "A" "1") evictTicks)).buy_vol = 15 ∧
    (10 : ℚ) ≠ 15 := by
  norm_num [OrderFlowEngine.processTicks, OrderFlowEngine.process_tick,
    OrderFlowEngine.tradedVolume, OrderFlowEngine.classify, OrderFlowEngine.candle_start,
    OrderFlowEngine.rollCandles, OrderFlowEngine.applyFlow, OrderFlowEngine.newCandle,
    OrderFlowEngine.finalizeCandle, pyRound, hasKey, updateKey, evictMin, minKey,
    levelsBuySum, currentCandleD, mkEngine, evictTicks, cfgLevels2, List.eraseP]

/-- C1 (amended): for every candle held by the engine, open or closed, the
level sums equal the candle totals — provided no eviction occurred, e.g.
whenever at most `MAX_LEVELS_PER_CANDLE` ticks were processed; eviction
removes a level's volume from the level sum but not from the candle totals. -/
theorem c1_level_sums (cfg : Config) (sym sid : String) (ts : List Tick)
    (h : ts.length ≤ cfg.maxLevels) :
    EngineSums (OrderFlowEngine.processTicks cfg (mkEngine sym sid) ts) := by
  apply processTicks_sums
  · constructor
    · intro c hc
      simp [mkEngine] at hc
    · intro c hc
      simp [mkEngine] at hc
  · simpa [levelsLen, mkEngine] using h

/-- Witness for the amended C1 on the two-tick §8 scenario. -/
theorem c1_level_sums_witness :
    [scenarioTick1, scenarioTick2].length ≤ defaultConfig.maxLevels ∧
    EngineSums (OrderFlowEngine.processTicks defaultConfig (mkEngine "NIFTY" "13")
      [scenarioTick1, scenarioTick2]) :=
  ⟨by decide,
   c1_level_sums defaultConfig "NIFTY" "13" [scenarioTick1, scenarioTick2] (by decide)⟩

/-! ## C2 — CVD identity -/

theorem finalizeCandle_delta (c : FootprintCandle) :
    (OrderFlowEngine.finalizeCandle c).delta = c.delta := rfl

theorem newCandle_delta (candle_ts : Nat) (ltp : ℚ) :
    (OrderFlowEngine.newCandle candle_ts ltp).delta = 0 := by
  simp [OrderFlowEngine.newCandle, FootprintCandle.delta]

theorem currentDelta_of_some (e : OrderFlowEngine) (c : FootprintCandle)
    (h : e.current_candle = some c) : currentDelta e = c.delta := by
  simp [currentDelta, h]

theorem currentDelta_of_none (e : OrderFlowEngine)
    (h : e.current_candle = none) : currentDelta e = 0 := by
  simp [currentDelta, h]

theorem pruneCandles_of_le (cfg : Config) (cs : List FootprintCandle)
    (h : cs.length ≤ cfg.maxCandles) :
    OrderFlowEngine.pruneCandles cfg cs = cs := by
  unfold OrderFlowEngine.pruneCandles
  rw [if_neg (not_lt.mpr h)]

/-- One `process_tick` preserves the CVD identity while the closed-candle list
is strictly below the pruning cap, and appends at most one closed candle. -/
theorem process_tick_cvdInv (cfg : Config) (e : OrderFlowEngine) (t : Tick)
    (h : CvdInvariant e) (hLen : e.candles.length < cfg.maxCandles) :
    CvdInvariant (OrderFlowEngine.process_tick cfg e t) ∧
    (OrderFlowEngine.process_tick cfg e t).candles.length ≤ e.candles.length + 1 := by
  unfold CvdInvariant at h ⊢
  have hcd : currentDelta (OrderFlowEngine.process_tick cfg e t) =
      (OrderFlowEngine.rollCandles cfg e
        (OrderFlowEngine.candle_start cfg t.ts_ms) t.ltp).2.1.delta +
      ((e.classify t (e.tradedVolume t).1).1 - (e.classify t (e.tradedVolume t).1).2) := by
    rw [currentDelta_of_some _ _ (process_tick_current cfg e t), applyFlow_delta]
  have hsum : closedDeltaSum (OrderFlowEngine.process_tick cfg e t) =
      ((OrderFlowEngine.rollCandles cfg e
        (OrderFlowEngine.candle_start cfg t.ts_ms) t.ltp).1.map FootprintCandle.delta).sum := rfl
  rcases hc : e.current_candle with _ | c
  · have hroll : OrderFlowEngine.rollCandles cfg e
        (OrderFlowEngine.candle_start cfg t.ts_ms) t.ltp =
        (e.candles, OrderFlowEngine.newCandle
          (OrderFlowEngine.candle_start cfg t.ts_ms) t.ltp, e.last_oi) := by
      simp [OrderFlowEngine.rollCandles, hc]
    rw [currentDelta_of_none _ hc] at h
    constructor
    · rw [process_tick_cvd, hcd, hsum, hroll, newCandle_delta]
      dsimp only
      simp only [closedDeltaSum] at h
      linarith
    · rw [process_tick_candles, hroll]
      dsimp only
      omega
  · by_cases hts : c.open_time = OrderFlowEngine.candle_start cfg t.ts_ms
    · have hroll : OrderFlowEngine.rollCandles cfg e
          (OrderFlowEngine.candle_start cfg t.ts_ms) t.ltp =
          (e.candles, c, e.last_oi) := by
        simp [OrderFlowEngine.rollCandles, hc, hts]
      rw [currentDelta_of_some _ _ hc] at h
      constructor
      · rw [process_tick_cvd, hcd, hsum, hroll]
        dsimp only
        simp only [closedDeltaSum] at h
        linarith
      · rw [process_tick_candles, hroll]
        dsimp only
        omega
    · have hprune : OrderFlowEngine.pruneCandles cfg
          (e.candles ++ [OrderFlowEngine.finalizeCandle c]) =
          e.candles ++ [OrderFlowEngine.finalizeCandle c] :=
        pruneCandles_of_le cfg _ (by
          rw [List.length_append, List.length_singleton]
          omega)
      have hroll : OrderFlowEngine.rollCandles cfg e
          (OrderFlowEngine.candle_start cfg t.ts_ms) t.ltp =
          (e.candles ++ [OrderFlowEngine.finalizeCandle c],
           OrderFlowEngine.newCandle (OrderFlowEngine.candle_start cfg t.ts_ms) t.ltp,
           (OrderFlowEngine.finalizeCandle c).oi) := by
        simp [OrderFlowEngine.rollCandles, hc, hts, hprune]
      rw [currentDelta_of_some _ _ hc] at h
      constructor
      · rw [process_tick_cvd, hcd, hsum, hroll, newCandle_delta]
        dsimp only
        simp only [closedDeltaSum] at h
        simp only [List.map_append, List.sum_append, List.map_cons, List.map_nil,
          List.sum_cons, List.sum_nil, finalizeCandle_delta]
        linarith
      · rw [process_tick_candles, hroll]
        dsimp only
        rw [List.length_append, List.length_singleton]

/-- Folding `process_tick` preserves the CVD identity while the closed-candle
budget lasts. -/
theorem processTicks_cvdInv (cfg : Config) (ts : List Tick) :
    ∀ e : OrderFlowEngine, CvdInvariant e →
      e.candles.length + ts.length ≤ cfg.maxCandles →
      CvdInvariant (OrderFlowEngine.processTicks cfg e ts) := by
  induction ts with
  | nil => intro e h _; exact h
  | cons t rest ih =>
      intro e h hb
      simp only [List.length_cons] at hb
      have hLen : e.candles.length < cfg.maxCandles := by omega
      obtain ⟨h1, h2⟩ := process_tick_cvdInv cfg e t h hLen
      exact ih _ h1 (by omega)

set_option maxHeartbeats 2000000 in
/-- C2 counterexample: with `MAX_CANDLES_PER_SYMBOL = 1`, the third minute
prunes the first closed candle (delta 10) from the list while `cvd` keeps it:
`cvd = 30` but the stored closed candles plus the open candle sum to 20. -/
theorem c2_counterexample :
    (OrderFlowEngine.processTicks cfgCandles1 (mkEngine "A" "1") pruneTicks).cvd = 30 ∧
    closedDeltaSum (OrderFlowEngine.processTicks cfgCandles1 (mkEngine "A" "1") pruneTicks) +
      currentDelta (OrderFlowEngine.processTicks cfgCandles1 (mkEngine "A" "1") pruneTicks) = 20 ∧
    (30 : ℚ) ≠ 20 := by
  norm_num [OrderFlowEngine.processTicks, OrderFlowEngine.process_tick,
    OrderFlowEngine.tradedVolume, OrderFlowEngine.classify, OrderFlowEngine.candle_start,
    OrderFlowEngine.rollCandles, OrderFlowEngine.applyFlow, OrderFlowEngine.newCandle,
    OrderFlowEngine.finalizeCandle, OrderFlowEngine.pruneCandles, pyRound, hasKey, updateKey,
    closedDeltaSum, currentDelta, FootprintCandle.delta, mkEngine, pruneTicks, cfgCandles1]

/-- C2 (amended): after any tick sequence since the reset, the engine's `cvd`
equals the sum of deltas over the stored closed candles plus the open candle's
delta — provided the list was never pruned, e.g. whenever at most
`MAX_CANDLES_PER_SYMBOL` ticks were processed; pruning drops old deltas from
the list while `cvd` retains them. -/
theorem c2_cvd_identity (cfg : Config) (sym sid : String) (ts : List Tick)
    (h : ts.length ≤ cfg.maxCandles) :
    (OrderFlowEngine.processTicks cfg (mkEngine sym sid) ts).cvd =
      closedDeltaSum (OrderFlowEngine.processTicks cfg (mkEngine sym sid) ts) +
      currentDelta (OrderFlowEngine.processTicks cfg (mkEngine sym sid) ts) := by
  apply processTicks_cvdInv
  · show (mkEngine sym sid).cvd = closedDeltaSum (mkEngine sym sid) +
      currentDelta (mkEngine sym sid)
    simp [mkEngine, closedDeltaSum, currentDelta]
  · simpa [mkEngine] using h

/-- Witness for the amended C2 on the two-tick §8 scenario. -/
theorem c2_cvd_identity_witness :
    [scenarioTick1, scenarioTick2].length ≤ defaultConfig.maxCandles ∧
    (OrderFlowEngine.processTicks defaultConfig (mkEngine "NIFTY" "13")
        [scenarioTick1, scenarioTick2]).cvd =
      closedDeltaSum (OrderFlowEngine.processTicks defaultConfig (mkEngine "NIFTY" "13")
        [scenarioTick1, scenarioTick2]) +
      currentDelta (OrderFlowEngine.processTicks defaultConfig (mkEngine "NIFTY" "13")
        [scenarioTick1, scenarioTick2]) :=
  ⟨by decide,
   c2_cvd_identity defaultConfig "NIFTY" "13" [scenarioTick1, scenarioTick2] (by decide)⟩

/-! ## C4 — bucket monotonicity -/

theorem candle_start_mono (cfg : Config) {a b : Nat} (h : a ≤ b) :
    OrderFlowEngine.candle_start cfg a ≤ OrderFlowEngine.candle_start cfg b := by
  unfold OrderFlowEngine.candle_start
  exact Nat.mul_le_mul_right _ (Nat.div_le_div_right h)

theorem finalizeCandle_open_time (c : FootprintCandle) :
    (OrderFlowEngine.finalizeCandle c).open_time = c.open_time := rfl

/-- One `process_tick` preserves strict bucket monotonicity of the closed
candles when the incoming bucket is at least the open candle's bucket; the
new open candle sits at the tick's bucket, above every stored candle. -/
theorem process_tick_mono (cfg : Config) (e : OrderFlowEngine) (t : Tick)
    (hPW : List.Pairwise (· < ·) (openTimes e))
    (hBC : belowCurrent e)
    (hLE : ∀ cur, e.current_candle = some cur →
      cur.open_time ≤ OrderFlowEngine.candle_start cfg t.ts_ms) :
    List.Pairwise (· < ·) (openTimes (OrderFlowEngine.process_tick cfg e t)) ∧
    belowCurrent (OrderFlowEngine.process_tick cfg e t) ∧
    ∀ cur, (OrderFlowEngine.process_tick cfg e t).current_candle = some cur →
      cur.open_time = OrderFlowEngine.candle_start cfg t.ts_ms := by
  have hot : openTimes (OrderFlowEngine.process_tick cfg e t) =
      ((OrderFlowEngine.rollCandles cfg e
        (OrderFlowEngine.candle_start cfg t.ts_ms) t.ltp).1).map FootprintCandle.open_time := rfl
  have hbc2 : belowCurrent (OrderFlowEngine.process_tick cfg e t) ↔
      ∀ cc ∈ (OrderFlowEngine.rollCandles cfg e
          (OrderFlowEngine.candle_start cfg t.ts_ms) t.ltp).1,
        cc.open_time < (OrderFlowEngine.rollCandles cfg e
          (OrderFlowEngine.candle_start cfg t.ts_ms) t.ltp).2.1.open_time := by
    rw [show belowCurrent (OrderFlowEngine.process_tick cfg e t) =
        ∀ cc ∈ (OrderFlowEngine.process_tick cfg e t).candles,
          cc.open_time < (OrderFlowEngine.applyFlow cfg
            (OrderFlowEngine.rollCandles cfg e
              (OrderFlowEngine.candle_start cfg t.ts_ms) t.ltp).2.1 t.ltp
            (e.classify t (e.tradedVolume t).1).1 (e.classify t (e.tradedVolume t).1).2
            t.oi (OrderFlowEngine.rollCandles cfg e
              (OrderFlowEngine.candle_start cfg t.ts_ms) t.ltp).2.2).open_time
        from rfl]
    rw [applyFlow_open_time, process_tick_candles]
  have hcur2 : ∀ cur, (OrderFlowEngine.process_tick cfg e t).current_candle = some cur →
      cur.open_time = (OrderFlowEngine.rollCandles cfg e
        (OrderFlowEngine.candle_start cfg t.ts_ms) t.ltp).2.1.open_time := by
    intro cur hcur
    rw [process_tick_current] at hcur
    cases hcur
    exact applyFlow_open_time cfg _ t.ltp _ _ t.oi _
  rcases hc : e.current_candle with _ | c
  · have hnil : e.candles = [] := by
      simpa [belowCurrent, hc] using hBC
    have hroll : OrderFlowEngine.rollCandles cfg e
        (OrderFlowEngine.candle_start cfg t.ts_ms) t.ltp =
        (e.candles, OrderFlowEngine.newCandle
          (OrderFlowEngine.candle_start cfg t.ts_ms) t.ltp, e.last_oi) := by
      simp [OrderFlowEngine.rollCandles, hc]
    refine ⟨?_, ?_, ?_⟩
    · rw [hot, hroll]
      simp [hnil]
    · rw [hbc2, hroll]
      simp [hnil]
    · intro cur hcur
      rw [hcur2 cur hcur, hroll]
      rfl
  · by_cases hts : c.open_time = OrderFlowEngine.candle_start cfg t.ts_ms
    · have hroll : OrderFlowEngine.rollCandles cfg e
          (OrderFlowEngine.candle_start cfg t.ts_ms) t.ltp =
          (e.candles, c, e.last_oi) := by
        simp [OrderFlowEngine.rollCandles, hc, hts]
      have hbelow : ∀ cc ∈ e.candles, cc.open_time < c.open_time := by
        simpa [belowCurrent, hc] using hBC
      refine ⟨?_, ?_, ?_⟩
      · rw [hot, hroll]
        exact hPW
      · rw [hbc2, hroll]
        exact hbelow
      · intro cur hcur
        rw [hcur2 cur hcur, hroll]
        exact hts
    · have hlt : c.open_time < OrderFlowEngine.candle_start cfg t.ts_ms :=
        lt_of_le_of_ne (hLE c hc) hts
      have hbelow : ∀ cc ∈ e.candles, cc.open_time < c.open_time := by
        simpa [belowCurrent, hc] using hBC
      have hroll : OrderFlowEngine.rollCandles cfg e
          (OrderFlowEngine.candle_start cfg t.ts_ms) t.ltp =
          (OrderFlowEngine.pruneCandles cfg
            (e.candles ++ [OrderFlowEngine.finalizeCandle c]),
           OrderFlowEngine.newCandle (OrderFlowEngine.candle_start cfg t.ts_ms) t.ltp,
           (OrderFlowEngine.finalizeCandle c).oi) := by
        simp [OrderFlowEngine.rollCandles, hc, hts]
      have hPWapp : List.Pairwise (· < ·)
          ((e.candles ++ [OrderFlowEngine.finalizeCandle c]).map FootprintCandle.open_time) := by
        rw [List.map_append]
        rw [List.pairwise_append]
        refine ⟨hPW, by simp, ?_⟩
        intro a ha b hb
        simp only [List.map_cons, List.map_nil, List.mem_singleton,
          finalizeCandle_open_time] at hb
        rw [hb]
        obtain ⟨cc, hcc, rfl⟩ := List.mem_map.mp ha
        exact hbelow cc hcc
      refine ⟨?_, ?_, ?_⟩
      · rw [hot, hroll]
        unfold OrderFlowEngine.pruneCandles
        split
        · rw [List.map_drop]
          exact hPWapp.sublist (List.drop_sublist _ _)
        · exact hPWapp
      · rw [hbc2, hroll]
        intro cc hcc
        have hmem := pruneCandles_subset cfg _ cc hcc
        rcases List.mem_append.mp hmem with hmem2 | hmem2
        · calc cc.open_time < c.open_time := hbelow cc hmem2
            _ < _ := hlt
        · rw [List.mem_singleton.mp hmem2, finalizeCandle_open_time]
          exact hlt
      · intro cur hcur
        rw [hcur2 cur hcur, hroll]
        rfl

/-- Folding `process_tick` over bucket-sorted ticks keeps the closed candles
strictly increasing. -/
theorem processTicks_mono (cfg : Config) (ts : List Tick) :
    ∀ e : OrderFlowEngine, List.Pairwise (· ≤ ·) (ts.map Tick.ts_ms) →
      List.Pairwise (· < ·) (openTimes e) → belowCurrent e →
      (∀ t2 ∈ ts, ∀ cur, e.current_candle = some cur →
        cur.open_time ≤ OrderFlowEngine.candle_start cfg t2.ts_ms) →
      List.Pairwise (· < ·) (openTimes (OrderFlowEngine.processTicks cfg e ts)) := by
  induction ts with
  | nil =>
      intro e _ hPW _ _
      exact hPW
  | cons t rest ih =>
      intro e hsort hPW hBC hLB
      simp only [List.map_cons, List.pairwise_cons] at hsort
      obtain ⟨hhead, hrest⟩ := hsort
      obtain ⟨h1, h2, h3⟩ := process_tick_mono cfg e t hPW hBC
        (fun cur hcur => hLB t (List.mem_cons_self t rest) cur hcur)
      apply ih _ hrest h1 h2
      intro t2 ht2 cur hcur
      rw [h3 cur hcur]
      exact candle_start_mono cfg (hhead t2.ts_ms (List.mem_map_of_mem Tick.ts_ms ht2))

set_option maxHeartbeats 2000000 in
/-- C4 counterexample: ticks whose minute buckets arrive out of order
(60 s, 0 s, 120 s) close candles with `open_time` sequence `[60000, 0]`, which
is not strictly increasing — the candle-roll condition closes on any bucket
inequality, so the claim fails without an ordering precondition. -/
theorem c4_counterexample :
    openTimes (OrderFlowEngine.processTicks defaultConfig (mkEngine "A" "1")
      outOfOrderTicks) = [60000, 0] ∧
    ¬ List.Pairwise (fun a b => a < b) ([60000, 0] : List Nat) := by
  constructor
  · norm_num [OrderFlowEngine.processTicks, OrderFlowEngine.process_tick,
      OrderFlowEngine.tradedVolume, OrderFlowEngine.classify, OrderFlowEngine.candle_start,
      OrderFlowEngine.rollCandles, OrderFlowEngine.applyFlow, OrderFlowEngine.newCandle,
      OrderFlowEngine.finalizeCandle, OrderFlowEngine.pruneCandles, pyRound, hasKey,
      updateKey, openTimes, mkEngine, outOfOrderTicks, defaultConfig]
  · decide

/-- C4 (amended): when the ticks are processed in non-decreasing timestamp
order, the `open_time` values of the stored closed candles are strictly
increasing; out-of-order buckets break the property (see the counterexample). -/
theorem c4_bucket_monotonic (cfg : Config) (sym sid : String) (ts : List Tick)
    (h : List.Pairwise (· ≤ ·) (ts.map Tick.ts_ms)) :
    List.Pairwise (· < ·)
      (openTimes (OrderFlowEngine.processTicks cfg (mkEngine sym sid) ts)) := by
  apply processTicks_mono cfg ts (mkEngine sym sid) h
  · simp [openTimes, mkEngine]
  · show belowCurrent (mkEngine sym sid)
    simp [belowCurrent, mkEngine]
  · intro t2 _ cur hcur
    simp [mkEngine] at hcur

/-- Witness for the amended C4 on three sorted one-minute ticks. -/
theorem c4_bucket_monotonic_witness :
    List.Pairwise (· ≤ ·) (pruneTicks.map Tick.ts_ms) ∧
    List.Pairwise (· < ·)
      (openTimes (OrderFlowEngine.processTicks defaultConfig (mkEngine "A" "1")
        pruneTicks)) :=
  ⟨by decide, c4_bucket_monotonic defaultConfig "A" "1" pruneTicks (by decide)⟩

end OrderFlow
